import Mathlib

/-!
Shallow embedding of `pyamf/remoting/client/__init__.py` (PyAMF remoting
client): the request ledger (`RemotingService.addRequest` / `removeRequest` /
`getRequest`), envelope construction (`getAMFRequest`), the orchestration
paths (`execute_single`, `execute`, `_getResponse`), the pending-call record
(`RequestWrapper`), the proxy capture path (`ServiceMethodProxy.__call__` /
`ServiceProxy._call`) and constructor URL handling (`RemotingService.__init__`).

External collaborators (the AMF codec `remoting.encode` / `remoting.decode`,
`httplib` connections and `urlparse`) are modelled as abstract data:
a `Transport` record of functions and a `ParsedURL` record of the components
`urlparse` produces.  Machine-level Python details that no claim depends on
(interned strings, reference counting) are not modelled; object identity of
proxies and wrappers, which the code relies on (`list.index`, `==` on
instances without `__eq__`), is modelled by unique numeric tokens.
-/

/-- Model of a Python value as used by this client: call arguments are Python
tuples whose elements are scalars or nested tuples.  A tuple is encoded as a
cons-list (`tupleNil` / `tupleCons`), which mirrors how the variadic `*args`
packing nests tuples inside tuples. -/
inductive PyVal where
  | int (i : Int)
  | str (s : String)
  | tupleNil
  | tupleCons (head tail : PyVal)
deriving DecidableEq, Repr

/-- Build the Python tuple `(x1, ..., xn)` from a Lean list, modelling the
packing a variadic `*args` parameter performs. -/
def PyVal.ofList : List PyVal → PyVal
  | [] => .tupleNil
  | x :: xs => .tupleCons x (PyVal.ofList xs)

/-- Model of the Python exceptions this module can raise: `ValueError`
(unknown scheme in `__init__`, and `list.index` misses), `TypeError`
(`getService` with a non-string name), `LookupError` (`getRequest` /
`removeRequest` misses), `KeyError` (envelope subscript misses),
`AttributeError` (`RequestWrapper._get_result` before a response) and
`pyamf.remoting.RemotingError` (HTTP validation failures in `_getResponse`). -/
inductive PyErr where
  | valueError (msg : String)
  | typeError (msg : String)
  | lookupError (msg : String)
  | keyError (msg : String)
  | attributeError (msg : String)
  | remotingError (msg : String)
deriving DecidableEq, Repr

/-- Decidable equality of `Except` results, so that concrete runs of the
fallible operations can be checked by evaluation. -/
instance {ε α : Type} [DecidableEq ε] [DecidableEq α] : DecidableEq (Except ε α) :=
  fun x y =>
    match x, y with
    | .ok a, .ok b =>
        if h : a = b then .isTrue (by rw [h])
        else .isFalse (by intro hc; injection hc; exact h (by assumption))
    | .ok _, .error _ => .isFalse (by intro hc; cases hc)
    | .error _, .ok _ => .isFalse (by intro hc; cases hc)
    | .error e, .error f =>
        if h : e = f then .isTrue (by rw [h])
        else .isFalse (by intro hc; injection hc; exact h (by assumption))

/-- Model of a `pyamf.remoting.Request` entry of an outbound envelope:
`remoting.Request(str(service), args)` at line 298 of the source. -/
structure RemotingRequest where
  target : String
  body : PyVal
deriving DecidableEq, Repr

/-- Model of an outbound `pyamf.remoting.Envelope` (an external collaborator):
protocol version, client type and the keyed entries assigned by
`envelope[request.id] = ...`, kept in assignment order. -/
structure Envelope where
  amfVersion : Nat
  clientType : Nat
  entries : List (String × RemotingRequest)
deriving DecidableEq, Repr

/-- Model of one response message of a decoded envelope; `body` is the
payload that `RequestWrapper.setResponse` copies into `result` and that
`ServiceProxy._call` returns in auto-execute mode. -/
structure RemotingResponse where
  body : PyVal
deriving DecidableEq, Repr

/-- Model of a decoded response `pyamf.remoting.Envelope`: iteration yields
`(id, response)` pairs, and subscripting looks an id up. -/
structure ResponseEnvelope where
  entries : List (String × RemotingResponse)
deriving DecidableEq, Repr

/-- Envelope subscript `envelope[id]` on a decoded response envelope:
the first entry with the given id, if any (a miss raises `KeyError` at the
call site, line 314). -/
def envLookup (env : ResponseEnvelope) (id_ : String) : Option RemotingResponse :=
  (env.entries.find? (fun p => p.1 == id_)).map Prod.snd

/-- Model of a `ServiceMethodProxy` (lines 41-73): the parent service name,
the method name (`None` when the service itself is called, line 117-121), and
a token standing for the object identity that `request.service == service`
compares at line 280 (its class defines no `__eq__`, so `==` is identity). -/
structure ServiceMethodProxyM where
  tok : Nat
  serviceName : String
  methodName : Option String
deriving DecidableEq, Repr

/-- Model of `ServiceMethodProxy.__str__` (lines 63-73): the service name,
with `.method` appended when a method name is present. -/
def ServiceMethodProxyM.toStr (p : ServiceMethodProxyM) : String :=
  match p.methodName with
  | Option.none => p.serviceName
  | some n => p.serviceName ++ "." ++ n

/-- Model of a `RequestWrapper` (lines 129-173).  `uid` stands for the object
identity used by `self.requests.index(service)` at line 275 (the class
defines no `__eq__`); `addRequest` allocates it from the same counter as the
id, so tokens are unique per gateway.  `response` and `result` model the
`self.response` attribute and the `_result` slot behind the `result`
property; both are unset (`Option.none`) until `setResponse` runs. -/
structure RequestWrapper where
  uid : Nat
  id : String
  serviceTok : Nat
  serviceName : String
  methodName : Option String
  args : PyVal
  response : Option RemotingResponse
  result : Option PyVal
deriving DecidableEq, Repr

/-- Model of `RequestWrapper.setResponse` (lines 152-158): store the response
and set `result` to `response.body` (through the property setter). -/
def setResponse (w : RequestWrapper) (resp : RemotingResponse) : RequestWrapper :=
  { w with response := some resp, result := some resp.body }

/-- Model of `RequestWrapper._get_result` (lines 160-168): raise
`AttributeError` when `_result` was never set, else return it. -/
def getResult (w : RequestWrapper) : Except PyErr PyVal :=
  match w.result with
  | Option.none =>
      .error (.attributeError "RequestWrapper object has no attribute result")
  | some r => .ok r

/-- Model of `str(service)` for the service object stored in a wrapper, as
`getAMFRequest` computes it at line 298. -/
def wrapperTarget (w : RequestWrapper) : String :=
  match w.methodName with
  | Option.none => w.serviceName
  | some n => w.serviceName ++ "." ++ n

/-- Mutable state of a `RemotingService` that the ledger operations touch:
the pending-request queue `self.requests` and the id counter
`self.request_number` (lines 197-198). -/
structure GatewayState where
  requests : List RequestWrapper
  request_number : Nat
deriving DecidableEq, Repr

/-- Queue and counter as `__init__` leaves them: `self.requests = []`,
`self.request_number = 1` (lines 197-198). -/
def initialState : GatewayState := { requests := [], request_number := 1 }

/-- Request id allocated by `addRequest`: the string `'/%d' % n`
(line 260). -/
def mkId (n : Nat) : String := "/" ++ toString n

/-- Ids of the queued wrappers, in queue order. -/
def idsOf (l : List RequestWrapper) : List String := l.map (fun w => w.id)

/-- Identity tokens of the queued wrappers, in queue order. -/
def uidsOf (l : List RequestWrapper) : List Nat := l.map (fun w => w.uid)

/-- Delete the first element satisfying `p` from a list, or report that none
does.  This is the effect of `del self.requests[self.requests.index(x)]`
(line 275 / 281) and of the first-match scan at lines 279-283. -/
def removeFirst (p : α → Bool) : List α → Option (List α)
  | [] => Option.none
  | x :: xs => if p x then some xs else (removeFirst p xs).map (fun ys => x :: ys)

/-- Model of `RemotingService.addRequest` (lines 256-266): build a wrapper
with id `'/%d' % self.request_number`, increment the counter, append the
wrapper to the queue, return it.  `args` is the tuple the variadic `*args`
parameter packed. -/
def addRequest (st : GatewayState) (service : ServiceMethodProxyM) (args : PyVal) :
    RequestWrapper × GatewayState :=
  let w : RequestWrapper :=
    { uid := st.request_number, id := mkId st.request_number,
      serviceTok := service.tok, serviceName := service.serviceName,
      methodName := service.methodName, args := args,
      response := Option.none, result := Option.none }
  (w, { requests := st.requests ++ [w], request_number := st.request_number + 1 })

/-- Model of the `isinstance(service, RequestWrapper)` branch of
`RemotingService.removeRequest` (lines 274-277):
`del self.requests[self.requests.index(service)]`.  `list.index` compares by
identity here (no `__eq__` on `RequestWrapper`), modelled by `uid`; when the
wrapper is not in the list, `list.index` raises `ValueError` - it does NOT
raise `LookupError`. -/
def removeRequestByWrapper (st : GatewayState) (w : RequestWrapper) :
    Except PyErr GatewayState :=
  match removeFirst (fun r => r.uid == w.uid) st.requests with
  | some rs => .ok { st with requests := rs }
  | Option.none => .error (.valueError "x not in list")

/-- Model of the service/args branch of `RemotingService.removeRequest`
(lines 279-285): scan the queue in order for the first entry whose service
compares equal (identity, modelled by the token) and whose `args` tuple
compares equal, delete it; raise `LookupError` when nothing matches. -/
def removeRequestByService (st : GatewayState) (serviceTok : Nat) (args : PyVal) :
    Except PyErr GatewayState :=
  match removeFirst (fun r => r.serviceTok == serviceTok && r.args == args) st.requests with
  | some rs => .ok { st with requests := rs }
  | Option.none => .error (.lookupError "request not found")

/-- Model of `RemotingService.getRequest` (lines 246-254): linear scan by id,
`LookupError` when absent. -/
def getRequest (st : GatewayState) (id_ : String) : Except PyErr RequestWrapper :=
  match st.requests.find? (fun r => r.id == id_) with
  | some r => .ok r
  | Option.none => .error (.lookupError ("request " ++ id_ ++ " not found"))

/-- Model of `RemotingService.getAMFRequest` (lines 287-300): an envelope
with this gateway protocol settings whose entries are
`envelope[request.id] = remoting.Request(str(request.service), request.args)`
for the supplied requests, in order. -/
def getAMFRequest (amfVersion clientType : Nat) (reqs : List RequestWrapper) : Envelope :=
  { amfVersion := amfVersion, clientType := clientType,
    entries := reqs.map (fun r => (r.id, { target := wrapperTarget r, body := r.args })) }

/-- MIME type constant `pyamf.remoting.CONTENT_TYPE` that `_getResponse`
compares against at line 349. -/
def CONTENT_TYPE : String := "application/x-amf"

/-- Model of an `httplib` response object as `_getResponse` consumes it:
status code, the `Content-Type` and `Content-Length` headers (`getheader`
returns `None` when a header is missing) and the byte stream `read` draws
from.  `read()` returns the whole stream; `read(n)` returns its first `n`
bytes (collaborator contract of the connection). -/
structure HTTPResponseM where
  status : Nat
  contentType : Option String
  contentLength : Option Nat
  stream : List Nat
deriving DecidableEq, Repr

/-- External collaborators of one HTTP exchange, as functions: the AMF codec
`remoting.encode` / `remoting.decode` (decode may raise a codec error) and
the connection round trip `self.connection.request(...)` followed by
`self.connection.getresponse()`, which maps posted bytes to an HTTP
response. -/
structure Transport where
  encode : Envelope → List Nat
  exchange : List Nat → HTTPResponseM
  decode : List Nat → Except PyErr ResponseEnvelope

/-- Model of `RemotingService._getResponse` (lines 335-360): get the HTTP
response for the posted bytes; raise `RemotingError` reporting the status
when it is not 200; raise `RemotingError` on a `Content-Type` different from
`remoting.CONTENT_TYPE` (a missing header also differs); then read the body -
the whole stream when no `Content-Length` header is present, else up to the
declared length - and decode it. -/
def getResponseM (tr : Transport) (posted : List Nat) : Except PyErr ResponseEnvelope :=
  let http := tr.exchange posted
  if http.status ≠ 200 then
    .error (.remotingError ("HTTP Gateway reported status " ++ toString http.status))
  else if http.contentType ≠ some CONTENT_TYPE then
    .error (.remotingError "Incorrect MIME type received.")
  else
    let bytes :=
      match http.contentLength with
      | Option.none => http.stream
      | some n => http.stream.take n
    tr.decode bytes

/-- One HTTP request issued on the connection:
`self.connection.request('POST', self._root_url, body.getvalue())`
(line 309 / line 323). -/
structure Post where
  method : String
  path : String
  payload : List Nat
deriving DecidableEq, Repr

/-- Static configuration `__init__` leaves on the instance: the request path
`self._root_url`, the connection host/port and kind, and the protocol
settings `amf_version` / `client_type`. -/
structure RemotingServiceCfg where
  root_url : String
  connHost : Option String
  connPort : Nat
  secure : Bool
  amf_version : Nat
  client_type : Nat
deriving DecidableEq, Repr

/-- Model of `RemotingService.execute_single` (lines 302-314): encode the
one-request envelope, POST it to `self._root_url`, validate and decode the
response (`_getResponse`), remove the request from the queue, and return
`envelope[request.id]` (a miss there raises `KeyError`).  The returned state
is the queue after the call: unchanged whenever an error occurs before the
`removeRequest` line runs. -/
def execute_single (cfg : RemotingServiceCfg) (tr : Transport) (st : GatewayState)
    (w : RequestWrapper) :
    List Post × GatewayState × Except PyErr RemotingResponse :=
  let bytes := tr.encode (getAMFRequest cfg.amf_version cfg.client_type [w])
  let post : Post := { method := "POST", path := cfg.root_url, payload := bytes }
  let outcome : GatewayState × Except PyErr RemotingResponse :=
    match getResponseM tr bytes with
    | .error e => (st, .error e)
    | .ok env =>
        match removeRequestByWrapper st w with
        | .error e => (st, .error e)
        | .ok st2 =>
            match envLookup env w.id with
            | some resp => (st2, .ok resp)
            | Option.none => (st2, .error (.keyError w.id))
  ([post], outcome)

/-- Model of the response loop of `RemotingService.execute` (lines 327-333):
for each `(id, response)` pair of the decoded envelope, `getRequest(id)`
(raising `LookupError` on a miss), `setResponse`, `removeRequest`.  `acc`
collects the wrappers completed so far (the in-place mutations the loop
performs on objects the caller still holds). -/
def correlate (st : GatewayState) :
    List (String × RemotingResponse) → List RequestWrapper →
    Except PyErr (GatewayState × List RequestWrapper)
  | [], acc => .ok (st, acc)
  | (id_, resp) :: rest, acc =>
      match getRequest st id_ with
      | .error e => .error e
      | .ok w =>
          let w2 := setResponse w resp
          match removeRequestByWrapper st w2 with
          | .error e => .error e
          | .ok st2 => correlate st2 rest (acc ++ [w2])

/-- Model of `RemotingService.execute` (lines 316-333): encode an envelope
from the whole queue, POST it to `self._root_url`, validate and decode the
response, then correlate every response entry back to its pending call. -/
def execute (cfg : RemotingServiceCfg) (tr : Transport) (st : GatewayState) :
    List Post × Except PyErr (GatewayState × List RequestWrapper) :=
  let bytes := tr.encode (getAMFRequest cfg.amf_version cfg.client_type st.requests)
  let post : Post := { method := "POST", path := cfg.root_url, payload := bytes }
  let outcome : Except PyErr (GatewayState × List RequestWrapper) :=
    match getResponseM tr bytes with
    | .error e => .error e
    | .ok env => correlate st env.entries []
  ([post], outcome)

/-- Registration step of `ServiceProxy._call` (line 107):
`self._gw.addRequest(method_proxy, args)` passes the already-packed argument
tuple as ONE positional argument, so the variadic `*args` of `addRequest`
packs it again: the stored tuple is `(args,)`. -/
def proxyCapture (st : GatewayState) (proxy : ServiceMethodProxyM)
    (callArgs : PyVal) : RequestWrapper × GatewayState :=
  addRequest st proxy (PyVal.ofList [callArgs])

/-- Result of a captured service-method call: the decoded response body in
auto-execute mode (line 113), or the pending `RequestWrapper` in deferred
mode (line 115). -/
inductive CallOutcome where
  | value (v : PyVal)
  | pending (w : RequestWrapper)
deriving DecidableEq, Repr

/-- Model of `ServiceMethodProxy.__call__` + `ServiceProxy._call`
(lines 57-61 and 101-115): pack the caller arguments into a tuple, register
the request, and - when the service was obtained with auto-execute - run
`execute_single` and return `response.body`. -/
def serviceCall (cfg : RemotingServiceCfg) (tr : Transport) (st : GatewayState)
    (autoExecute : Bool) (proxy : ServiceMethodProxyM) (callArgs : List PyVal) :
    GatewayState × Except PyErr CallOutcome :=
  let (w, st1) := proxyCapture st proxy (PyVal.ofList callArgs)
  if autoExecute then
    match execute_single cfg tr st1 w with
    | (_, st2, .ok resp) => (st2, .ok (.value resp.body))
    | (_, st2, .error e) => (st2, .error e)
  else
    (st1, .ok (.pending w))

/-- Components of the parsed construction URL, as `urlparse.urlparse`
(an external collaborator) produces them: the six tuple slots, plus the
`port` / `hostname` attributes of a `ParseResult` together with flags for
the two `hasattr` probes at lines 207 and 218 (older Python versions return
a bare tuple without those attributes). -/
structure ParsedURL where
  scheme : String
  netloc : String
  path : String
  params : String
  query : String
  fragment : String
  hasPortAttr : Bool
  portAttr : Option Nat
  hasHostnameAttr : Bool
  hostnameAttr : Option String
deriving DecidableEq, Repr

/-- Model of `netloc.rsplit(':', 1)` as used at line 214: split at the last
colon; `Option.none` when the string holds no colon (the `':' not in
self.url[1]` guard at line 211). -/
def rsplitColon (s : String) : Option (String × String) :=
  match (s.splitOn ":").reverse with
  | [] => Option.none
  | [_] => Option.none
  | last :: restRev => some (String.intercalate ":" restRev.reverse, last)

/-- Model of `urlparse.urlunparse(['', ''] + list(self.url[2:]))` (line 199):
scheme and netloc blanked, so the result is
`path[;params][?query][#fragment]` - the query and fragment components are
kept. -/
def rootUrl (u : ParsedURL) : String :=
  let p := if u.params = "" then u.path else u.path ++ ";" ++ u.params
  let q := if u.query = "" then p else p ++ "?" ++ u.query
  if u.fragment = "" then q else q ++ "#" ++ u.fragment

/-- Model of the hostname/port resolution of `RemotingService.__init__`
(lines 204-219): with a `port` attribute available, take it (and the
`hostname` attribute, when available, for the still-unset hostname);
otherwise split the netloc at its last colon and convert the port with
`int(...)`, which raises `ValueError` on a non-numeric port. -/
def resolveHostPort (u : ParsedURL) : Except PyErr (Option String × Option Nat) :=
  if u.hasPortAttr then
    .ok ((if u.hasHostnameAttr then u.hostnameAttr else Option.none), u.portAttr)
  else
    match rsplitColon u.netloc with
    | Option.none =>
        .ok ((if u.hasHostnameAttr then u.hostnameAttr else Option.none), Option.none)
    | some (h, pstr) =>
        match pstr.toNat? with
        | some p => .ok (some h, some p)
        | Option.none => .error (.valueError ("invalid literal for int: " ++ pstr))

/-- Model of `RemotingService.__init__` (lines 195-232): compute
`self._root_url`, resolve hostname and port, then open an
`httplib.HTTPConnection` on port 80 by default for scheme `http`, an
`httplib.HTTPSConnection` on port 443 by default for scheme `https`, and
raise `ValueError` (the configuration error) for any other scheme.  The
mutable state it initialises is `initialState`. -/
def remotingServiceInit (u : ParsedURL) (amfVersion clientType : Nat) :
    Except PyErr RemotingServiceCfg :=
  match resolveHostPort u with
  | .error e => .error e
  | .ok (hostname, port) =>
    if u.scheme = "http" then
      .ok { root_url := rootUrl u, connHost := hostname, connPort := port.getD 80,
            secure := false, amf_version := amfVersion, client_type := clientType }
    else if u.scheme = "https" then
      .ok { root_url := rootUrl u, connHost := hostname, connPort := port.getD 443,
            secure := true, amf_version := amfVersion, client_type := clientType }
    else
      .error (.valueError "Unknown scheme")

/-- One ledger operation of claim C1: a registration (`addRequest` through
the capture path or directly) or either form of cancellation
(`removeRequest`). -/
inductive LedgerOp where
  | register (service : ServiceMethodProxyM) (args : PyVal)
  | cancelWrapper (w : RequestWrapper)
  | cancelService (serviceTok : Nat) (args : PyVal)

/-- Run one ledger operation, returning the new state and the ids issued by
it (one for a registration, none for a cancellation).  A failed cancellation
raises and leaves the state unchanged. -/
def stepOp (st : GatewayState) : LedgerOp → GatewayState × List String
  | .register service args =>
      let (w, st1) := addRequest st service args
      (st1, [w.id])
  | .cancelWrapper w =>
      match removeRequestByWrapper st w with
      | .ok st1 => (st1, [])
      | .error _ => (st, [])
  | .cancelService tok args =>
      match removeRequestByService st tok args with
      | .ok st1 => (st1, [])
      | .error _ => (st, [])

/-- Run a sequence of ledger operations, collecting every issued id in
order. -/
def runOps : GatewayState → List LedgerOp → GatewayState × List String
  | st, [] => (st, [])
  | st, op :: rest =>
      let (st1, ids1) := stepOp st op
      let (st2, ids2) := runOps st1 rest
      (st2, ids1 ++ ids2)

/-- Number of registrations in an operation sequence. -/
def countRegs : List LedgerOp → Nat
  | [] => 0
  | .register _ _ :: rest => countRegs rest + 1
  | .cancelWrapper _ :: rest => countRegs rest
  | .cancelService _ _ :: rest => countRegs rest

section RemoveFirstLemmas

variable {α β : Type} {p : α → Bool}

/-- `removeFirst` reports a miss exactly when no element matches. -/
theorem removeFirst_eq_none {l : List α} :
    removeFirst p l = Option.none ↔ ∀ x ∈ l, p x = false := by
  induction l with
  | nil => simp [removeFirst]
  | cons a l ih =>
    by_cases h : p a <;> simp [removeFirst, h, ih]

/-- Decomposition of a successful `removeFirst`: the list splits around the
first matching element, which is the one deleted. -/
theorem removeFirst_eq_some {l l2 : List α}
    (h : removeFirst p l = some l2) :
    ∃ pre a post, l = pre ++ a :: post ∧ p a = true ∧
      (∀ x ∈ pre, p x = false) ∧ l2 = pre ++ post := by
  induction l generalizing l2 with
  | nil => simp [removeFirst] at h
  | cons b l ih =>
    by_cases hb : p b
    · simp only [removeFirst, hb, if_pos, Option.some.injEq] at h
      exact ⟨[], b, l, by simp, hb, by simp, by simp [h]⟩
    · simp only [removeFirst, hb, if_neg, Bool.false_eq_true, not_false_iff,
        Option.map_eq_some', reduceIte] at h
      obtain ⟨ys, hys, rfl⟩ := h
      obtain ⟨pre, a, post, rfl, hpa, hpre, rfl⟩ := ih hys
      refine ⟨b :: pre, a, post, rfl, hpa, ?_, rfl⟩
      intro x hx
      rcases List.mem_cons.1 hx with rfl | hx
      · exact Bool.eq_false_iff.mpr hb
      · exact hpre x hx

/-- The list left by a successful `removeFirst` is a sublist of the input. -/
theorem removeFirst_sublist {l l2 : List α}
    (h : removeFirst p l = some l2) : List.Sublist l2 l := by
  obtain ⟨pre, a, post, rfl, _, _, rfl⟩ := removeFirst_eq_some h
  exact (List.sublist_cons_self a post).append_left pre

/-- An element that does not match survives a successful `removeFirst`. -/
theorem mem_removeFirst_of_not_match {l l2 : List α} {x : α}
    (h : removeFirst p l = some l2) (hx : x ∈ l) (hpx : p x = false) :
    x ∈ l2 := by
  obtain ⟨pre, a, post, rfl, hpa, _, rfl⟩ := removeFirst_eq_some h
  rcases List.mem_append.1 hx with hx | hx
  · exact List.mem_append.2 (Or.inl hx)
  · rcases List.mem_cons.1 hx with rfl | hx
    · rw [hpa] at hpx; cases hpx
    · exact List.mem_append.2 (Or.inr hx)

/-- When an element matches, `removeFirst` succeeds. -/
theorem removeFirst_isSome {l : List α} {x : α}
    (hx : x ∈ l) (hpx : p x = true) :
    ∃ l2, removeFirst p l = some l2 := by
  cases h : removeFirst p l with
  | some l2 => exact ⟨l2, rfl⟩
  | none => rw [removeFirst_eq_none.1 h x hx] at hpx; cases hpx

end RemoveFirstLemmas

/-- Characterisation of a successful wrapper-identity `removeRequest`. -/
theorem removeRequestByWrapper_ok {st st2 : GatewayState} {w : RequestWrapper} :
    removeRequestByWrapper st w = .ok st2 ↔
      ∃ rs, removeFirst (fun r => r.uid == w.uid) st.requests = some rs ∧
        st2 = { st with requests := rs } := by
  unfold removeRequestByWrapper
  cases h : removeFirst (fun r => r.uid == w.uid) st.requests <;> simp [h, eq_comm]

/-- Characterisation of a successful service/args `removeRequest`. -/
theorem removeRequestByService_ok {st st2 : GatewayState} {tok : Nat} {args : PyVal} :
    removeRequestByService st tok args = .ok st2 ↔
      ∃ rs, removeFirst (fun r => r.serviceTok == tok && r.args == args) st.requests
          = some rs ∧ st2 = { st with requests := rs } := by
  unfold removeRequestByService
  cases h : removeFirst (fun r => r.serviceTok == tok && r.args == args) st.requests <;>
    simp [h, eq_comm]

/-- Neither form of cancellation changes the id counter, whether it succeeds
or raises. -/
theorem stepOp_cancel_counter (st : GatewayState) (op : LedgerOp)
    (h : ∀ service args, op ≠ .register service args) :
    (stepOp st op).1.request_number = st.request_number ∧ (stepOp st op).2 = [] := by
  cases op with
  | register service args => exact absurd rfl (h service args)
  | cancelWrapper w =>
    cases hr : removeRequestByWrapper st w with
    | ok st1 =>
      obtain ⟨rs, _, rfl⟩ := removeRequestByWrapper_ok.1 hr
      simp [stepOp, hr]
    | error e => simp [stepOp, hr]
  | cancelService tok args =>
    cases hr : removeRequestByService st tok args with
    | ok st1 =>
      obtain ⟨rs, _, rfl⟩ := removeRequestByService_ok.1 hr
      simp [stepOp, hr]
    | error e => simp [stepOp, hr]

/-- Generalised id-issuance invariant: from any state, a sequence of ledger
operations advances the counter by the number of registrations and issues
exactly the ids `mkId` of the counter values passed through, in order. -/
theorem runOps_ids (ops : List LedgerOp) : ∀ st : GatewayState,
    (runOps st ops).1.request_number = st.request_number + countRegs ops ∧
    (runOps st ops).2 = (List.range' st.request_number (countRegs ops)).map mkId := by
  induction ops with
  | nil => intro st; simp [runOps, countRegs]
  | cons op rest ih =>
    intro st
    cases op with
    | register service args =>
      have h1 := ih ((addRequest st service args).2)
      simp only [runOps, stepOp, addRequest] at h1 ⊢
      constructor
      · rw [h1.1]; simp [countRegs]; omega
      · rw [h1.2]
        simp only [countRegs]
        rw [List.range'_succ st.request_number (countRegs rest) 1]
        simp
    | cancelWrapper w =>
      have hc := stepOp_cancel_counter st (.cancelWrapper w) (by intro s a h; cases h)
      have h1 := ih ((stepOp st (.cancelWrapper w)).1)
      simp only [runOps]
      rw [hc.2]
      constructor
      · rw [h1.1, hc.1]; simp [countRegs]
      · rw [h1.2, hc.1]; simp [countRegs]
    | cancelService tok args =>
      have hc := stepOp_cancel_counter st (.cancelService tok args) (by intro s a h; cases h)
      have h1 := ih ((stepOp st (.cancelService tok args)).1)
      simp only [runOps]
      rw [hc.2]
      constructor
      · rw [h1.1, hc.1]; simp [countRegs]
      · rw [h1.2, hc.1]; simp [countRegs]

/-- Concrete service-method proxy for the scenario claims: the descriptor
`getService("math").add` (token 7 standing for the object identity). -/
def mathAddProxy : ServiceMethodProxyM :=
  { tok := 7, serviceName := "math", methodName := some "add" }

/-- Concrete client configuration for the scenario claims. -/
def sampleCfg : RemotingServiceCfg :=
  { root_url := "/gateway", connHost := some "example.com", connPort := 80,
    secure := false, amf_version := 0, client_type := 0 }

/-- Decoded response envelope of the stubbed exchange: `{"/1": response with
payload 3}`. -/
def sampleEnv : ResponseEnvelope := { entries := [("/1", { body := PyVal.int 3 })] }

/-- Stubbed transport whose exchange always succeeds with status 200, the
right MIME type, and decodes to `sampleEnv`. -/
def okTransport : Transport :=
  { encode := fun _ => [],
    exchange := fun _ =>
      { status := 200, contentType := some CONTENT_TYPE,
        contentLength := Option.none, stream := [] },
    decode := fun _ => .ok sampleEnv }

/-- Stubbed transport whose exchange reports HTTP status 500. -/
def badStatusTransport : Transport :=
  { okTransport with
    exchange := fun _ =>
      { status := 500, contentType := some CONTENT_TYPE,
        contentLength := Option.none, stream := [] } }

/-- Wrapper and state after capturing `math.add(1, 2)` on a fresh client. -/
def sampleCapture : RequestWrapper × GatewayState :=
  proxyCapture initialState mathAddProxy (PyVal.ofList [PyVal.int 1, PyVal.int 2])

/-- The pending call registered by the sample capture. -/
def sampleW : RequestWrapper := sampleCapture.1

/-- Queue state holding exactly the sample pending call. -/
def sampleSt : GatewayState := sampleCapture.2

/-- The sample call once its response (payload 3) is attached. -/
def sampleDone : RequestWrapper := setResponse sampleW { body := PyVal.int 3 }

/-- C1: over any sequence of registrations interleaved with cancellations of
either form, the issued ids are exactly "/1", "/2", ..., "/n" in registration
order - `mkId` of the consecutive counter values starting at 1 - and the
counter ends at n + 1, so it is never decremented or reused and cancellation
does not affect subsequent ids. -/
theorem register_ids_sequential (ops : List LedgerOp) :
    (runOps initialState ops).2 = (List.range' 1 (countRegs ops)).map mkId ∧
    (runOps initialState ops).1.request_number = countRegs ops + 1 := by
  have h := runOps_ids ops initialState
  refine ⟨h.2, ?_⟩
  rw [h.1]
  simp [initialState]
  omega

/-- C5: a freshly registered pending call raises `AttributeError` (the
not-ready error) when its `result` property is read - never a default value -
and after `setResponse(r)` the property returns exactly the body payload of
`r`. -/
theorem result_not_ready_then_payload (st : GatewayState)
    (service : ServiceMethodProxyM) (args : PyVal) (resp : RemotingResponse) :
    getResult (addRequest st service args).1 =
      .error (.attributeError "RequestWrapper object has no attribute result") ∧
    getResult (setResponse (addRequest st service args).1 resp) = .ok resp.body := by
  exact ⟨rfl, rfl⟩

/-- C2 (amended): `execute_single` removes the call from the queue when the
HTTP exchange validates and decodes successfully, but when `_getResponse`
raises, the error propagates before the `removeRequest` line runs, so the
call is still queued. -/
theorem execute_single_queue (cfg : RemotingServiceCfg) (tr : Transport)
    (st : GatewayState) (w : RequestWrapper)
    (hmem : w ∈ st.requests) (hu : (uidsOf st.requests).Nodup) :
    (∀ e, getResponseM tr (tr.encode (getAMFRequest cfg.amf_version cfg.client_type [w]))
        = .error e → (execute_single cfg tr st w).2.1 = st) ∧
    (∀ env, getResponseM tr (tr.encode (getAMFRequest cfg.amf_version cfg.client_type [w]))
        = .ok env → w ∉ (execute_single cfg tr st w).2.1.requests) := by
  constructor
  · intro e he
    simp [execute_single, he]
  · intro env henv
    have hpw : (fun r : RequestWrapper => r.uid == w.uid) w = true := by simp
    obtain ⟨rs, hrs⟩ :=
      @removeFirst_isSome RequestWrapper (fun r => r.uid == w.uid) st.requests w hmem hpw
    have hrm : removeRequestByWrapper st w = .ok { st with requests := rs } := by
      unfold removeRequestByWrapper
      rw [hrs]
    have hnotin : w ∉ rs := by
      obtain ⟨pre, a, post, hsplit, hpa, hpre, rfl⟩ := removeFirst_eq_some hrs
      intro hwmem
      rcases List.mem_append.1 hwmem with h1 | h2
      · have := hpre w h1
        simp at this
      · have hau : a.uid = w.uid := by simpa using hpa
        rw [hsplit] at hu
        simp only [uidsOf, List.map_append, List.map_cons] at hu
        have h3 := (List.nodup_cons.1 hu.of_append_right).1
        exact h3 (hau ▸ List.mem_map.2 ⟨w, h2, rfl⟩)
    simp only [execute_single, henv, hrm]
    cases hl : envLookup env w.id <;> simpa [hl] using hnotin

/-- Witness for C2 (amended) at the sample scenario: the registered call is
queued, uids are unique, and a successful stubbed exchange leaves it out of
the queue. -/
theorem execute_single_queue_witness :
    sampleW ∈ sampleSt.requests ∧ (uidsOf sampleSt.requests).Nodup ∧
    (∀ env, getResponseM okTransport
        (okTransport.encode (getAMFRequest sampleCfg.amf_version sampleCfg.client_type [sampleW]))
        = .ok env →
      sampleW ∉ (execute_single sampleCfg okTransport sampleSt sampleW).2.1.requests) :=
  ⟨by decide, by decide,
    (execute_single_queue sampleCfg okTransport sampleSt sampleW
      (by decide) (by decide)).2⟩

/-- Counterexample to C2 as stated: with an exchange reporting HTTP status
500, `execute_single` raises the protocol error and the call IS still in the
request queue afterward. -/
theorem execute_single_error_keeps_queued :
    (execute_single sampleCfg badStatusTransport sampleSt sampleW).2.2 =
      .error (.remotingError "HTTP Gateway reported status 500") ∧
    sampleW ∈ (execute_single sampleCfg badStatusTransport sampleSt sampleW).2.1.requests := by
  exact ⟨by decide, by decide⟩

/-- Sublists of the queue have sublists of ids. -/
theorem idsOf_sublist {l1 l2 : List RequestWrapper} (h : List.Sublist l1 l2) :
    List.Sublist (idsOf l1) (idsOf l2) := by
  unfold idsOf
  exact h.map (fun w => w.id)

/-- Helper for C3: on a state whose wrappers carry `addRequest`-shaped ids
(`id = mkId uid`) and whose queue ids are distinct, a successful correlation
loop removes every responded call, completes it with its response attached,
keeps every other call, preserves the accumulator, and only ever shrinks the
queue. -/
theorem correlate_ok_spec (entries : List (String × RemotingResponse)) :
    ∀ (st : GatewayState) (acc : List RequestWrapper) (st2 : GatewayState)
      (completed : List RequestWrapper),
    (∀ w ∈ st.requests, w.id = mkId w.uid) →
    (idsOf st.requests).Nodup →
    correlate st entries acc = .ok (st2, completed) →
    ((∀ p ∈ entries, p.1 ∉ idsOf st2.requests) ∧
     (∀ p ∈ entries, ∃ w ∈ st.requests, w.id = p.1 ∧ setResponse w p.2 ∈ completed) ∧
     (∀ w ∈ st.requests, w.id ∉ entries.map Prod.fst → w ∈ st2.requests) ∧
     (∀ x ∈ acc, x ∈ completed) ∧
     List.Sublist st2.requests st.requests) := by
  induction entries with
  | nil =>
    intro st acc st2 completed _ _ hok
    simp only [correlate, Except.ok.injEq, Prod.mk.injEq] at hok
    obtain ⟨rfl, rfl⟩ := hok
    exact ⟨by simp, by simp, fun w hw _ => hw, fun x hx => hx, List.Sublist.refl _⟩
  | cons e rest ih =>
    intro st acc st2 completed hwf hids hok
    obtain ⟨id_, resp⟩ := e
    cases hg : getRequest st id_ with
    | error err =>
      simp only [correlate, hg] at hok
      exact Except.noConfusion hok
    | ok w =>
      have hwmem : w ∈ st.requests := by
        unfold getRequest at hg
        cases hf : st.requests.find? (fun r => r.id == id_) with
        | some v =>
          rw [hf] at hg
          cases hg
          exact List.mem_of_find?_eq_some hf
        | none => rw [hf] at hg; cases hg
      have hwid : w.id = id_ := by
        unfold getRequest at hg
        cases hf : st.requests.find? (fun r => r.id == id_) with
        | some v =>
          rw [hf] at hg
          cases hg
          simpa using List.find?_some hf
        | none => rw [hf] at hg; cases hg
      cases hrm : removeRequestByWrapper st (setResponse w resp) with
      | error err =>
        simp only [correlate, hg, hrm] at hok
        exact Except.noConfusion hok
      | ok st1 =>
        simp only [correlate, hg, hrm] at hok
        obtain ⟨rs, hrs, rfl⟩ := removeRequestByWrapper_ok.1 hrm
        have hsub1 : List.Sublist rs st.requests := removeFirst_sublist hrs
        have hwf1 : ∀ v ∈ rs, v.id = mkId v.uid := fun v hv => hwf v (hsub1.mem hv)
        have hids1 : (idsOf rs).Nodup := hids.sublist (idsOf_sublist hsub1)
        have hrest := ih { st with requests := rs } (acc ++ [setResponse w resp])
          st2 completed hwf1 hids1 hok
        -- the deleted element carries exactly the id of the responded entry
        obtain ⟨pre, a, post, hsplit, hpa, hpre, hrseq⟩ := removeFirst_eq_some hrs
        have hauid : a.uid = w.uid := by simpa [setResponse] using hpa
        have haid : a.id = id_ := by
          have h1 := hwf a (hsplit ▸ (by simp : a ∈ pre ++ a :: post))
          have h2 := hwf w hwmem
          rw [h1, hauid, ← h2, hwid]
        have hid_notin_rs : id_ ∉ idsOf rs := by
          intro hmem
          -- a member of rs with id `id_` would duplicate the id of `a` in st
          rw [hrseq] at hmem
          obtain ⟨v, hv, hvid⟩ := List.mem_map.1 hmem
          rw [hsplit] at hids
          simp only [idsOf, List.map_append, List.map_cons] at hids
          have hmid := List.nodup_middle.1 hids
          have hnot := (List.nodup_cons.1 hmid).1
          rw [← List.map_append] at hnot
          exact hnot (haid ▸ hvid ▸ List.mem_map.2 ⟨v, hv, rfl⟩)
        refine ⟨?_, ?_, ?_, ?_, hrest.2.2.2.2.trans hsub1⟩
        · intro p hp
          rcases List.mem_cons.1 hp with rfl | hp
          · intro hmem2
            exact hid_notin_rs ((idsOf_sublist hrest.2.2.2.2).mem hmem2)
          · exact hrest.1 p hp
        · intro p hp
          rcases List.mem_cons.1 hp with rfl | hp
          · exact ⟨w, hwmem, hwid, hrest.2.2.2.1 _ (by simp)⟩
          · obtain ⟨v, hv, hvid, hvdone⟩ := hrest.2.1 p hp
            exact ⟨v, hsub1.mem hv, hvid, hvdone⟩
        · intro v hv hvids
          have hvne : v.id ≠ id_ := by
            intro hc
            exact hvids (by simp [hc])
          have hvp : (fun r : RequestWrapper => r.uid == (setResponse w resp).uid) v = false := by
            simp only [setResponse, Bool.eq_false_iff]
            intro hc
            have := eq_of_beq hc
            exact hvne (by rw [hwf v hv, this, ← hwf w hwmem, hwid])
          have hvrs : v ∈ rs := mem_removeFirst_of_not_match hrs hv hvp
          exact hrest.2.2.1 v hvrs (fun hc => hvids (by simp [hc]))
        · intro x hx
          exact hrest.2.2.2.1 x (by simp [hx])

/-- Helper for C3: when some response entry carries an id that matches no
queued call, the correlation loop raises a `LookupError` (it never drops the
entry silently). -/
theorem correlate_missing_err (entries : List (String × RemotingResponse)) :
    ∀ (st : GatewayState) (acc : List RequestWrapper),
    (∃ p ∈ entries, p.1 ∉ idsOf st.requests) →
    ∃ msg, correlate st entries acc = .error (.lookupError msg) := by
  induction entries with
  | nil =>
    intro st acc hex
    simp at hex
  | cons e rest ih =>
    intro st acc hex
    obtain ⟨id_, resp⟩ := e
    by_cases hid : id_ ∈ idsOf st.requests
    · -- the head entry matches; the failing entry is further down
      obtain ⟨v, hv, hvid⟩ := List.mem_map.1 hid
      have hfind : ∃ w, st.requests.find? (fun r => r.id == id_) = some w := by
        cases hf : st.requests.find? (fun r => r.id == id_) with
        | some w => exact ⟨w, rfl⟩
        | none =>
          have := List.find?_eq_none.1 hf v hv
          simp [hvid] at this
      obtain ⟨w, hf⟩ := hfind
      have hg : getRequest st id_ = .ok w := by unfold getRequest; rw [hf]
      have hwmem : w ∈ st.requests := List.mem_of_find?_eq_some hf
      have hpw : (fun r : RequestWrapper => r.uid == (setResponse w resp).uid) w = true := by
        simp [setResponse]
      obtain ⟨rs, hrs⟩ := @removeFirst_isSome RequestWrapper
        (fun r => r.uid == (setResponse w resp).uid) st.requests w hwmem hpw
      have hrm : removeRequestByWrapper st (setResponse w resp)
          = .ok { st with requests := rs } := by
        unfold removeRequestByWrapper
        rw [hrs]
      obtain ⟨p, hp, hpid⟩ := hex
      have hptail : p ∈ rest := by
        rcases List.mem_cons.1 hp with rfl | h
        · exact absurd hid hpid
        · exact h
      have hsub : List.Sublist rs st.requests := removeFirst_sublist hrs
      have hex1 : ∃ q ∈ rest, q.1 ∉ idsOf rs := by
        refine ⟨p, hptail, fun hc => hpid ?_⟩
        exact (idsOf_sublist hsub).mem hc
      obtain ⟨msg, hmsg⟩ := ih { st with requests := rs } (acc ++ [setResponse w resp]) hex1
      refine ⟨msg, ?_⟩
      simp only [correlate, hg, hrm]
      exact hmsg
    · -- the head entry itself has no pending call
      have hf : st.requests.find? (fun r => r.id == id_) = Option.none := by
        apply List.find?_eq_none.2
        intro v hv
        simp only [beq_iff_eq]
        intro hc
        exact hid (List.mem_map.2 ⟨v, hv, hc⟩)
      refine ⟨"request " ++ id_ ++ " not found", ?_⟩
      simp only [correlate, getRequest, hf]

/-- C3: after a successful batch `execute()`, every queued call whose id
appears in the decoded response envelope has its response attached (its
completed form, with `result` set to the response body, is among the mutated
wrappers) and is removed from the queue; every queued call whose id does not
appear stays in the queue; and when a response entry matches no pending call,
`execute()` raises a `LookupError` instead of dropping the entry.  The
hypotheses are the ledger invariants `addRequest` maintains: each wrapper id
is `mkId` of its identity token and queue ids are distinct. -/
theorem execute_correlation (cfg : RemotingServiceCfg) (tr : Transport)
    (st st2 : GatewayState) (completed : List RequestWrapper) (env : ResponseEnvelope)
    (hwf : ∀ w ∈ st.requests, w.id = mkId w.uid)
    (hids : (idsOf st.requests).Nodup)
    (henv : getResponseM tr (tr.encode (getAMFRequest cfg.amf_version cfg.client_type st.requests))
      = .ok env) :
    ((execute cfg tr st).2 = .ok (st2, completed) →
      (∀ p ∈ env.entries, p.1 ∉ idsOf st2.requests) ∧
      (∀ p ∈ env.entries,
        ∃ w ∈ st.requests, w.id = p.1 ∧ setResponse w p.2 ∈ completed ∧
          (setResponse w p.2).result = some p.2.body) ∧
      (∀ w ∈ st.requests, w.id ∉ env.entries.map Prod.fst → w ∈ st2.requests)) ∧
    ((∃ p ∈ env.entries, p.1 ∉ idsOf st.requests) →
      ∃ msg, (execute cfg tr st).2 = .error (.lookupError msg)) := by
  constructor
  · intro hok
    have hco : correlate st env.entries [] = .ok (st2, completed) := by
      simpa [execute, henv] using hok
    have h := correlate_ok_spec env.entries st [] st2 completed hwf hids hco
    refine ⟨h.1, ?_, h.2.2.1⟩
    intro p hp
    obtain ⟨w, hw, hwid, hdone⟩ := h.2.1 p hp
    exact ⟨w, hw, hwid, hdone, rfl⟩
  · intro hex
    obtain ⟨msg, hmsg⟩ := correlate_missing_err env.entries st [] hex
    exact ⟨msg, by simp [execute, henv, hmsg]⟩

/-- Witness for C3 at the sample scenario: one queued call "/1", a stubbed
envelope answering "/1" with payload 3; the batch completes the call with
result 3 and empties the queue. -/
theorem execute_correlation_witness :
    (∀ p ∈ sampleEnv.entries, p.1 ∉ idsOf (GatewayState.mk [] 2).requests) ∧
    (∀ p ∈ sampleEnv.entries,
      ∃ w ∈ sampleSt.requests, w.id = p.1 ∧ setResponse w p.2 ∈ [sampleDone] ∧
        (setResponse w p.2).result = some p.2.body) ∧
    (∀ w ∈ sampleSt.requests, w.id ∉ sampleEnv.entries.map Prod.fst →
      w ∈ (GatewayState.mk [] 2).requests) :=
  (execute_correlation sampleCfg okTransport sampleSt (GatewayState.mk [] 2)
    [sampleDone] sampleEnv (by decide) (by decide) rfl).1 (by decide)

/-- C4: evaluation of `removeRequest` at the failing input of the claim.
Cancelling the sample pending call removes it, but cancelling the SAME
wrapper again raises `ValueError` (from `list.index` at line 275), not the
`LookupError` that the claim and the method docstring promise; the
`LookupError` at line 285 is only reachable from the service/args branch. -/
theorem remove_twice_raises_valueerror :
    removeRequestByWrapper sampleSt sampleW =
      .ok { requests := [], request_number := 2 } ∧
    removeRequestByWrapper { requests := [], request_number := 2 } sampleW =
      .error (.valueError "x not in list") ∧
    removeRequestByWrapper { requests := [], request_number := 2 } sampleW ≠
      .error (.lookupError "request not found") := by
  exact ⟨by decide, by decide, by decide⟩

/-- Counterexample to the args part of C6: the call captured for
`math.add(1, 2)` stores the one-element nested tuple `((1, 2),)` as its
argument list, not `(1, 2)`. -/
theorem capture_args_nested :
    sampleW.args = PyVal.ofList [PyVal.ofList [PyVal.int 1, PyVal.int 2]] ∧
    sampleW.args ≠ PyVal.ofList [PyVal.int 1, PyVal.int 2] := by
  exact ⟨by decide, by decide⟩

/-- C6 (amended): `getService("math").add(1,2)` with auto-execute registers
exactly one call, with id "/1", envelope target "math.add" and argument
list the nested tuple `((1, 2),)`; with the stubbed exchange answering "/1"
with payload 3 the call returns 3 and the queue is empty afterwards. -/
theorem scenario_math_add :
    sampleSt.requests = [sampleW] ∧
    sampleW.id = "/1" ∧
    (getAMFRequest sampleCfg.amf_version sampleCfg.client_type [sampleW]).entries =
      [("/1", { target := "math.add",
                body := PyVal.ofList [PyVal.ofList [PyVal.int 1, PyVal.int 2]] })] ∧
    serviceCall sampleCfg okTransport initialState true mathAddProxy
        [PyVal.int 1, PyVal.int 2] =
      ({ requests := [], request_number := 2 }, .ok (.value (PyVal.int 3))) := by
  exact ⟨by decide, by decide, by decide, by decide⟩

/-- C7: constructing a client with a scheme that is neither "http" nor
"https" raises `ValueError` (the configuration error); with scheme "http"
and no port the connection is an `HTTPConnection` on port 80; with scheme
"https" and no port an `HTTPSConnection` on port 443. -/
theorem init_scheme_and_ports (u : ParsedURL) (av ct : Nat)
    (hostname : Option String) (port : Option Nat)
    (hres : resolveHostPort u = .ok (hostname, port)) :
    (u.scheme ≠ "http" → u.scheme ≠ "https" →
      remotingServiceInit u av ct = .error (.valueError "Unknown scheme")) ∧
    (u.scheme = "http" → port = Option.none →
      remotingServiceInit u av ct = .ok
        { root_url := rootUrl u, connHost := hostname, connPort := 80,
          secure := false, amf_version := av, client_type := ct }) ∧
    (u.scheme = "https" → port = Option.none →
      remotingServiceInit u av ct = .ok
        { root_url := rootUrl u, connHost := hostname, connPort := 443,
          secure := true, amf_version := av, client_type := ct }) := by
  refine ⟨?_, ?_, ?_⟩
  · intro h1 h2
    simp [remotingServiceInit, hres, h1, h2]
  · intro h1 hport
    subst hport
    simp [remotingServiceInit, hres, h1]
  · intro h1 hport
    subst hport
    have h2 : u.scheme ≠ "http" := by rw [h1]; decide
    simp [remotingServiceInit, hres, h1, h2]

/-- Parsed form of the construction URL `http://example.com/gateway` (no
explicit port). -/
def sampleUrlHttp : ParsedURL :=
  { scheme := "http", netloc := "example.com", path := "/gateway",
    params := "", query := "", fragment := "", hasPortAttr := true,
    portAttr := Option.none, hasHostnameAttr := true,
    hostnameAttr := some "example.com" }

/-- Witness for C7 at `http://example.com/gateway`: the default port 80 is
used for the plain scheme. -/
theorem init_scheme_and_ports_witness :
    remotingServiceInit sampleUrlHttp 0 0 = .ok
      { root_url := rootUrl sampleUrlHttp, connHost := some "example.com",
        connPort := 80, secure := false, amf_version := 0, client_type := 0 } :=
  (init_scheme_and_ports sampleUrlHttp 0 0 (some "example.com") Option.none
    (by decide)).2.1 (by decide) rfl

/-- C8: `_getResponse` raises a protocol error reporting the observed status
on any non-200 HTTP status; with status 200 a `Content-Type` different from
the protocol MIME type raises a protocol error; otherwise the bytes decoded
are the whole stream when no `Content-Length` header is present, and the
stream read to the declared length when one is. -/
theorem getResponse_validation (tr : Transport) (posted : List Nat) :
    ((tr.exchange posted |>.status) ≠ 200 →
      getResponseM tr posted = .error (.remotingError
        ("HTTP Gateway reported status " ++ toString (tr.exchange posted |>.status)))) ∧
    ((tr.exchange posted |>.status) = 200 →
      (tr.exchange posted |>.contentType) ≠ some CONTENT_TYPE →
      getResponseM tr posted = .error (.remotingError "Incorrect MIME type received.")) ∧
    ((tr.exchange posted |>.status) = 200 →
      (tr.exchange posted |>.contentType) = some CONTENT_TYPE →
      (tr.exchange posted |>.contentLength) = Option.none →
      getResponseM tr posted = tr.decode (tr.exchange posted |>.stream)) ∧
    (∀ n, (tr.exchange posted |>.status) = 200 →
      (tr.exchange posted |>.contentType) = some CONTENT_TYPE →
      (tr.exchange posted |>.contentLength) = some n →
      getResponseM tr posted = tr.decode ((tr.exchange posted |>.stream).take n)) := by
  refine ⟨?_, ?_, ?_, ?_⟩
  · intro h
    simp [getResponseM, h]
  · intro h1 h2
    simp [getResponseM, h1, h2]
  · intro h1 h2 h3
    simp [getResponseM, h1, h2, h3]
  · intro n h1 h2 h3
    simp [getResponseM, h1, h2, h3]

/-- Stubbed transport declaring a `Content-Length` of 2 on a 4-byte stream,
decoding to the sample envelope. -/
def lengthTransport : Transport :=
  { okTransport with
    exchange := fun _ =>
      { status := 200, contentType := some CONTENT_TYPE,
        contentLength := some 2, stream := [10, 20, 30, 40] } }

/-- Witness for C8: on the status-500 stub the reported-status error is
raised, and on the declared-length stub exactly the first two stream bytes
are handed to the codec. -/
theorem getResponse_validation_witness :
    getResponseM badStatusTransport [] =
      .error (.remotingError "HTTP Gateway reported status 500") ∧
    getResponseM lengthTransport [] = lengthTransport.decode [10, 20] :=
  ⟨(getResponse_validation badStatusTransport []).1 (by decide),
   by
    have h := (getResponse_validation lengthTransport []).2.2.2 2
      (by decide) (by decide) (by decide)
    simpa using h⟩

/-- A configuration produced by `__init__` carries `rootUrl u` - the path
with params, query and fragment kept, scheme and netloc (hence host and
user-info) dropped - as its request path. -/
theorem remotingServiceInit_root_url {u : ParsedURL} {av ct : Nat}
    {cfg : RemotingServiceCfg}
    (h : remotingServiceInit u av ct = .ok cfg) : cfg.root_url = rootUrl u := by
  cases hres : resolveHostPort u with
  | error e =>
    simp only [remotingServiceInit, hres] at h
    exact Except.noConfusion h
  | ok hp =>
    obtain ⟨hostname, port⟩ := hp
    simp only [remotingServiceInit, hres] at h
    by_cases h1 : u.scheme = "http"
    · rw [if_pos h1] at h
      injection h with h2
      rw [← h2]
    · rw [if_neg h1] at h
      by_cases h3 : u.scheme = "https"
      · rw [if_pos h3] at h
        injection h with h2
        rw [← h2]
      · rw [if_neg h3] at h
        exact Except.noConfusion h

/-- C9 (amended): each of `execute_single` and `execute` issues exactly one
HTTP request - a POST of the encoded envelope - and its request path is
`self._root_url`: the constructed path with query (and params/fragment)
RETAINED and only scheme and network location (hence user-info and host)
stripped. -/
theorem post_path_is_root_url (cfg : RemotingServiceCfg) (tr : Transport)
    (st : GatewayState) (w : RequestWrapper) (u : ParsedURL) (av ct : Nat)
    (hcfg : remotingServiceInit u av ct = .ok cfg) :
    (execute_single cfg tr st w).1 =
      [{ method := "POST", path := rootUrl u,
         payload := tr.encode (getAMFRequest cfg.amf_version cfg.client_type [w]) }] ∧
    (execute cfg tr st).1 =
      [{ method := "POST", path := rootUrl u,
         payload := tr.encode (getAMFRequest cfg.amf_version cfg.client_type st.requests) }] := by
  have hurl := remotingServiceInit_root_url hcfg
  constructor
  · rw [← hurl]
    rfl
  · rw [← hurl]
    rfl

/-- Parsed form of `http://user:pw@example.com/gateway?a=1`: user-info in the
netloc and a non-empty query string. -/
def sampleUrlQuery : ParsedURL :=
  { scheme := "http", netloc := "user:pw@example.com", path := "/gateway",
    params := "", query := "a=1", fragment := "", hasPortAttr := true,
    portAttr := Option.none, hasHostnameAttr := true,
    hostnameAttr := some "example.com" }

/-- Counterexample to C9 as stated: for a construction URL with a query
string, the POST path `self._root_url` is "/gateway?a=1" - the query is NOT
stripped - so it differs from the bare endpoint path "/gateway". -/
theorem post_path_keeps_query :
    (remotingServiceInit sampleUrlQuery 0 0).map (fun cfg => cfg.root_url) =
      .ok "/gateway?a=1" ∧
    (execute_single
        { root_url := "/gateway?a=1", connHost := some "example.com", connPort := 80,
          secure := false, amf_version := 0, client_type := 0 }
        okTransport sampleSt sampleW).1 =
      [{ method := "POST", path := "/gateway?a=1", payload := [] }] ∧
    ("/gateway?a=1" : String) ≠ "/gateway" := by
  exact ⟨by decide, by decide, by decide⟩

/-- Witness for C9 (amended) at `http://user:pw@example.com/gateway?a=1`:
the one POST of `execute_single` goes to "/gateway?a=1". -/
theorem post_path_is_root_url_witness :
    (execute_single
        { root_url := "/gateway?a=1", connHost := some "example.com", connPort := 80,
          secure := false, amf_version := 0, client_type := 0 }
        okTransport sampleSt sampleW).1 =
      [{ method := "POST", path := rootUrl sampleUrlQuery,
         payload := okTransport.encode (getAMFRequest 0 0 [sampleW]) }] :=
  (post_path_is_root_url
    { root_url := "/gateway?a=1", connHost := some "example.com", connPort := 80,
      secure := false, amf_version := 0, client_type := 0 }
    okTransport sampleSt sampleW sampleUrlQuery 0 0 (by decide)).1

/-- A Python tuple is never equal to the one-element tuple wrapping it (the
values have different sizes). -/
theorem tupleCons_ne_self (t : PyVal) : PyVal.tupleCons t PyVal.tupleNil ≠ t := by
  intro h
  have hs := congrArg sizeOf h
  simp at hs
  omega

/-- C10: capturing a proxy call with argument tuple `t = (a1, ..., an)`
stores the nested tuple `(t,)` on the pending call; the outbound envelope
entry carries `(t,)` as its argument list; cancelling by
`removeRequest(serviceProxy, a1, ..., an)` (packed tuple `t`) finds no match
and raises `LookupError` even while the call is queued, while
`removeRequest(serviceProxy, t)` (packed tuple `(t,)`) removes it. -/
theorem capture_nested_args (proxy : ServiceMethodProxyM) (callArgs : List PyVal)
    (av ct : Nat) :
    (proxyCapture initialState proxy (PyVal.ofList callArgs)).1.args =
      PyVal.ofList [PyVal.ofList callArgs] ∧
    (getAMFRequest av ct [(proxyCapture initialState proxy (PyVal.ofList callArgs)).1]).entries =
      [("/1", { target := proxy.toStr, body := PyVal.ofList [PyVal.ofList callArgs] })] ∧
    removeRequestByService (proxyCapture initialState proxy (PyVal.ofList callArgs)).2
        proxy.tok (PyVal.ofList callArgs) =
      .error (.lookupError "request not found") ∧
    removeRequestByService (proxyCapture initialState proxy (PyVal.ofList callArgs)).2
        proxy.tok (PyVal.ofList [PyVal.ofList callArgs]) =
      .ok { requests := [], request_number := 2 } := by
  refine ⟨rfl, ?_, ?_, ?_⟩
  · unfold getAMFRequest proxyCapture addRequest wrapperTarget ServiceMethodProxyM.toStr
    cases proxy.methodName <;> simp [initialState, mkId] <;> decide
  · have hne : PyVal.ofList [PyVal.ofList callArgs] ≠ PyVal.ofList callArgs := by
      simpa [PyVal.ofList] using tupleCons_ne_self (PyVal.ofList callArgs)
    unfold removeRequestByService proxyCapture addRequest removeFirst
    simp [initialState, removeFirst, hne]
  · unfold removeRequestByService proxyCapture addRequest removeFirst
    simp [initialState, removeFirst]
